import Mathlib

/-!
Shallow embedding of the derived-view pipeline of `src/App.tsx`: the
filter → sort → paginate computation, the page-number display list, the
tag-frequency table computed at startup, and the component's interaction
state machine.  Strings are modelled as lists of characters.
-/

open scoped List

/-- Strings are modelled as lists of characters (JS strings). -/
abbrev Str := List Char

/-- JS `String.prototype.toLowerCase`, modelled character-wise. -/
def toLowerStr (s : Str) : Str := s.map Char.toLower

/-- JS `haystack.includes(needle)`: substring containment. -/
def jsIncludes (haystack needle : Str) : Bool := decide (needle <:+: haystack)

/-- The item record (`src/interfaces/IGame`), with the fields `App.tsx` uses:
title, genres (comma-delimited text), comment count, image URL, link URL. -/
structure IGame where
  title : Str
  genres : Str
  comments : Nat
  image : Str
  link : Str
deriving DecidableEq

/-- JS `s.split(", ")`, specialised to the separator the source uses. -/
def splitCommaSpace : Str → List Str
  | [] => [[]]
  | ',' :: ' ' :: rest => [] :: splitCommaSpace rest
  | c :: rest =>
    match splitCommaSpace rest with
    | [] => [[c]]
    | h :: t => (c :: h) :: t

/-- The `filteredGames` computation (App.tsx lines 63-70): keep a game iff
(no tag selected, or every selected tag is a substring of the lowercased
genre field) and (the search query is empty, or the lowercased title contains
the lowercased query). -/
def filteredGames (games : List IGame) (selectedTags : List Str) (searchQuery : Str) :
    List IGame :=
  games.filter fun game =>
    (selectedTags.length == 0 ||
      selectedTags.all fun tag => jsIncludes (toLowerStr game.genres) tag) &&
    (if searchQuery = [] then true
     else jsIncludes (toLowerStr game.title) (toLowerStr searchQuery))

/-- Order induced by the `"comments-desc"` comparator
`(a, b) => b.comments - a.comments`: `a` may precede `b` iff
`b.comments ≤ a.comments`. -/
def cmpDesc (a b : IGame) : Prop := b.comments ≤ a.comments

/-- Order induced by the `"comments-asc"` comparator
`(a, b) => a.comments - b.comments`. -/
def cmpAsc (a b : IGame) : Prop := a.comments ≤ b.comments

instance : DecidableRel cmpDesc :=
  fun a b => inferInstanceAs (Decidable (b.comments ≤ a.comments))

instance : DecidableRel cmpAsc :=
  fun a b => inferInstanceAs (Decidable (a.comments ≤ b.comments))

instance : IsTotal IGame cmpDesc := ⟨fun a b => Nat.le_total b.comments a.comments⟩

instance : IsTotal IGame cmpAsc := ⟨fun a b => Nat.le_total a.comments b.comments⟩

instance : IsTrans IGame cmpDesc := ⟨fun _ _ _ h1 h2 => le_trans h2 h1⟩

instance : IsTrans IGame cmpAsc := ⟨fun _ _ _ h1 h2 => le_trans h1 h2⟩

/-- The `sortedGames` computation (App.tsx lines 72-76): a stable sort of the
filtered list by the comparator `sortBy` selects (JS `Array.prototype.sort` is
stable, and the stable sort for a total preorder is exactly insertion sort);
any other `sortBy` value makes the comparator constantly `0`, leaving the
list in its original order. -/
def sortedGames (sortBy : Str) (l : List IGame) : List IGame :=
  if sortBy = "comments-asc".toList then l.insertionSort cmpAsc
  else if sortBy = "comments-desc".toList then l.insertionSort cmpDesc
  else l

/-- App.tsx `gamesPerPage`. -/
def gamesPerPage : Nat := 12

/-- App.tsx `indexOfLastGame = currentPage * gamesPerPage`. -/
def indexOfLastGame (currentPage : Nat) : Nat := currentPage * gamesPerPage

/-- App.tsx `indexOfFirstGame = indexOfLastGame - gamesPerPage`. -/
def indexOfFirstGame (currentPage : Nat) : Nat := indexOfLastGame currentPage - gamesPerPage

/-- App.tsx `currentGames = sortedGames.slice(indexOfFirstGame, indexOfLastGame)`. -/
def currentGames (sorted : List IGame) (currentPage : Nat) : List IGame :=
  (sorted.drop (indexOfFirstGame currentPage)).take
    (indexOfLastGame currentPage - indexOfFirstGame currentPage)

/-- App.tsx `totalPages = Math.ceil(sortedGames.length / gamesPerPage)`; for a
natural `n`, `Math.ceil(n / 12)` is integer division rounded upwards. -/
def totalPages (n : Nat) : Nat := (n + gamesPerPage - 1) / gamesPerPage

/-- An entry of the page-number display list: a page number or an ellipsis. -/
inductive PageEntry where
  | page (n : Nat)
  | dots
deriving DecidableEq

/-- App.tsx `maxPagesToShow`. -/
def maxPagesToShow : Nat := 5

/-- The `startPage`/`endPage` window computed inside `getPageNumbers`
(App.tsx lines 119-128), used in the `totalPages > maxPagesToShow` branch:
`startPage = max(currentPage - floor((maxPagesToShow-2)/2), 2)`,
`endPage = min(startPage + maxPagesToShow - 3, totalPages - 1)`, and if
`endPage - startPage < maxPagesToShow - 3` the start is recomputed as
`max(endPage - (maxPagesToShow-3) + 1, 2)`. -/
def middleWindow (tp currentPage : Nat) : Nat × Nat :=
  let startPage := max (currentPage - (maxPagesToShow - 2) / 2) 2
  let endPage := min (startPage + maxPagesToShow - 3) (tp - 1)
  if endPage - startPage < maxPagesToShow - 3 then
    (max (endPage - (maxPagesToShow - 3) + 1) 2, endPage)
  else
    (startPage, endPage)

/-- App.tsx `getPageNumbers` (lines 108-146). -/
def getPageNumbers (tp currentPage : Nat) : List PageEntry :=
  if tp ≤ maxPagesToShow then
    (List.range tp).map fun i => PageEntry.page (i + 1)
  else
    let w := middleWindow tp currentPage
    [PageEntry.page 1]
      ++ (if 2 < w.1 then [PageEntry.dots] else [])
      ++ ((List.range (w.2 + 1 - w.1)).map fun i => PageEntry.page (w.1 + i))
      ++ (if w.2 < tp - 1 then [PageEntry.dots] else [])
      ++ [PageEntry.page tp]

/-- App.tsx `toggleTag` (lines 94-98), acting on the `selectedTags` list:
remove every occurrence when present, append when absent. -/
def toggleTag (tag : Str) (prev : List Str) : List Str :=
  if tag ∈ prev then prev.filter (fun t => decide (t ≠ tag)) else prev ++ [tag]

/-- Value of a non-empty digit sequence, as `parseInt` accumulates it. -/
def digitsVal (ds : List Char) : Nat := ds.foldl (fun acc c => acc * 10 + (c.toNat - 48)) 0

/-- JS `parseInt(s, 10)`: skip leading whitespace, read an optional sign and
then the longest digit prefix; `none` models `NaN` (no digit found). -/
def parseIntJS (s : Str) : Option Int :=
  let t := s.dropWhile Char.isWhitespace
  match t with
  | '-' :: rest =>
    let ds := rest.takeWhile Char.isDigit
    if ds = [] then none else some (-(digitsVal ds : Int))
  | '+' :: rest =>
    let ds := rest.takeWhile Char.isDigit
    if ds = [] then none else some (digitsVal ds)
  | _ =>
    let ds := t.takeWhile Char.isDigit
    if ds = [] then none else some (digitsVal ds)

/-- App.tsx `handlePageInputSubmit` (lines 100-106), returning the new
`(currentPage, pageInputValue)` pair: an in-range parsed page number becomes
the current page, anything else leaves the page alone and clears the field. -/
def handlePageInputSubmit (tp currentPage : Nat) (pageInputValue : Str) : Nat × Str :=
  match parseIntJS pageInputValue with
  | some p =>
    if 1 ≤ p ∧ p ≤ (tp : Int) then (p.toNat, pageInputValue) else (currentPage, [])
  | none => (currentPage, [])

/-- JS `Array.from(new Set(l))`: first occurrences, in iteration order. -/
def jsSet (l : List Str) : List Str :=
  l.foldl (fun acc x => if x ∈ acc then acc else acc ++ [x]) []

/-- App.tsx `genres` (lines 30-32): the deduplicated lowercased genre tokens of
all games, with `"2014"` and the empty token removed. -/
def genresOf (games : List IGame) : List Str :=
  (jsSet ((games.map fun g => splitCommaSpace (toLowerStr g.genres)).flatten)).filter
    fun s => decide (s ≠ "2014".toList) && decide (s ≠ [])

/-- One step of the `frequencyMap` reduce, with JS object insertion semantics
on an association list: an existing key keeps its position, a new key is
appended. -/
def bumpKey (acc : List (Str × Nat)) (val : Str) : List (Str × Nat) :=
  if acc.any (fun p => p.1 == val) then
    acc.map fun p => if p.1 = val then (p.1, p.2 + 1) else p
  else acc ++ [(val, 1)]

/-- App.tsx `frequencyMap` (lines 34-40), read back in `Object.entries` order. -/
def frequencyMap (genres : List Str) : List (Str × Nat) := genres.foldl bumpKey []

/-- Order induced by the `sortedByFrequency` comparator `(a, b) => b[1] - a[1]`. -/
def cmpCount (a b : Str × Nat) : Prop := b.2 ≤ a.2

instance : DecidableRel cmpCount := fun a b => inferInstanceAs (Decidable (b.2 ≤ a.2))

instance : IsTotal (Str × Nat) cmpCount := ⟨fun a b => Nat.le_total b.2 a.2⟩

instance : IsTrans (Str × Nat) cmpCount := ⟨fun _ _ _ h1 h2 => le_trans h2 h1⟩

/-- App.tsx `sortedByFrequency` (lines 42-44): the entry list of the frequency
map, stably sorted by descending recorded count. -/
def sortedByFrequency (games : List IGame) : List (Str × Nat) :=
  (frequencyMap (genresOf games)).insertionSort cmpCount

/-- App.tsx `tags` (lines 46-48), including the no-op `slice(0, length)`. -/
def tagsOf (games : List IGame) : List Str :=
  ((sortedByFrequency games).take (sortedByFrequency games).length).map fun e => e.1

/-- Number of items whose genre field contains the tag among its lowercased
comma-separated tokens: the frequency of occurrence across items that the spec
says the tag list is ranked by. -/
def itemFrequency (games : List IGame) (tag : Str) : Nat :=
  (games.filter fun g => (splitCommaSpace (toLowerStr g.genres)).contains tag).length

/-- The spec's claimed ranking property of the startup tag list: every earlier
tag occurs in at least as many items as every later tag. -/
def rankedByItemFrequency (games : List IGame) : Prop :=
  (tagsOf games).Pairwise fun t u => itemFrequency games u ≤ itemFrequency games t

/-- The component's UI state (the `useState` hooks of App.tsx). -/
structure AppState where
  sortBy : Str
  currentPage : Nat
  selectedTags : List Str
  searchQuery : Str
  tagSearchQuery : Str
  pageInputValue : Str
deriving DecidableEq

/-- The hooks' initial values. -/
def initState : AppState :=
  { sortBy := "comments-desc".toList, currentPage := 1, selectedTags := [],
    searchQuery := [], tagSearchQuery := [], pageInputValue := [] }

/-- The sorted filtered list the render derives from a state. -/
def stateSorted (games : List IGame) (s : AppState) : List IGame :=
  sortedGames s.sortBy (filteredGames games s.selectedTags s.searchQuery)

/-- The `totalPages` value the render derives from a state. -/
def stateTotalPages (games : List IGame) (s : AppState) : Nat :=
  totalPages (stateSorted games s).length

/-- The visible page the render derives from a state. -/
def stateCurrentGames (games : List IGame) (s : AppState) : List IGame :=
  currentGames (stateSorted games s) s.currentPage

/-- User interactions of the component. -/
inductive Event where
  | setSearch (q : Str)
  | setSort (v : Str)
  | toggleTag (t : Str)
  | clearFilters
  | setTagSearch (q : Str)
  | setPageInput (v : Str)
  | prevPage
  | nextPage
  | clickPage (n : Nat)
  | submitPageInput

/-- One synchronous interaction step: the event handler together with the
`useEffect` that resets `currentPage` to 1 when `selectedTags`, `searchQuery`
or `sortBy` change.  React bails out of a `setState` carrying the identical
value, so `setSearch`/`setSort` with the current value are no-ops, while
`toggleTag` and `clearFilters` always produce a fresh array and so always fire
the effect.  The pagination controls (previous/next, numbered buttons, page
form) are only rendered when the visible page is non-empty, previous is
disabled on page 1 and next on page `totalPages`, and the numbered buttons are
exactly the numeric entries of `getPageNumbers`. -/
def step (games : List IGame) (s : AppState) : Event → AppState
  | .setSearch q =>
    if q = s.searchQuery then s else { s with searchQuery := q, currentPage := 1 }
  | .setSort v =>
    if v = s.sortBy then s else { s with sortBy := v, currentPage := 1 }
  | .toggleTag t => { s with selectedTags := toggleTag t s.selectedTags, currentPage := 1 }
  | .clearFilters => { s with selectedTags := [], tagSearchQuery := [], currentPage := 1 }
  | .setTagSearch q => { s with tagSearchQuery := q }
  | .setPageInput v => { s with pageInputValue := v }
  | .prevPage =>
    if stateCurrentGames games s ≠ [] ∧ s.currentPage ≠ 1 then
      { s with currentPage := s.currentPage - 1 }
    else s
  | .nextPage =>
    if stateCurrentGames games s ≠ [] ∧ s.currentPage ≠ stateTotalPages games s then
      { s with currentPage := s.currentPage + 1 }
    else s
  | .clickPage n =>
    if stateCurrentGames games s ≠ [] ∧
        PageEntry.page n ∈ getPageNumbers (stateTotalPages games s) s.currentPage then
      { s with currentPage := n }
    else s
  | .submitPageInput =>
    if stateCurrentGames games s ≠ [] then
      let r := handlePageInputSubmit (stateTotalPages games s) s.currentPage s.pageInputValue
      { s with currentPage := r.1, pageInputValue := r.2 }
    else s

/-- States reachable from the initial state by user interactions. -/
inductive Reachable (games : List IGame) : AppState → Prop
  | init : Reachable games initState
  | next {s : AppState} (e : Event) : Reachable games s → Reachable games (step games s e)

/-- A small concrete data set used by the witnesses. -/
def g1 : IGame := ⟨"Alpha".toList, "RPG, Action".toList, 5, [], []⟩

/-- Second sample item. -/
def g2 : IGame := ⟨"Beta".toList, "Action".toList, 3, [], []⟩

/-- Third sample item, tied with `g2` on comments. -/
def g3 : IGame := ⟨"Gamma".toList, "Action".toList, 3, [], []⟩

/-- The sample data set. -/
def sampleGames : List IGame := [g1, g2, g3]

example : splitCommaSpace "rpg, action".toList = ["rpg".toList, "action".toList] := by decide

example : getPageNumbers 42 7 =
    [PageEntry.page 1, PageEntry.dots, PageEntry.page 6, PageEntry.page 7, PageEntry.page 8,
      PageEntry.dots, PageEntry.page 42] := by decide

example : middleWindow 42 42 = (40, 41) := by decide

example : tagsOf sampleGames = ["rpg".toList, "action".toList] := by decide

example : itemFrequency sampleGames "action".toList = 3 := by decide

example : parseIntJS "  -34x".toList = some (-34) := by decide

example : parseIntJS "abc".toList = none := by decide

example : filteredGames sampleGames ["action".toList] "bet".toList = [g2] := by decide

example : sortedGames "comments-asc".toList sampleGames = [g2, g3, g1] := by decide

/-! ### Theorems -/

/-- C1: for every item array and view state, the filtered result contains an
item iff it is in the array, every selected tag is a substring of the item's
lowercased genre field (vacuously when no tag is selected), and the lowercased
title contains the lowercased search query (vacuously when the query is
empty). -/
theorem filter_membership_iff (games : List IGame) (sel : List Str) (q : Str) (g : IGame) :
    g ∈ filteredGames games sel q ↔
      g ∈ games ∧ (sel = [] ∨ ∀ t ∈ sel, t <:+: toLowerStr g.genres) ∧
        (q = [] ∨ toLowerStr q <:+: toLowerStr g.title) := by
  simp only [filteredGames, List.mem_filter, Bool.and_eq_true, Bool.or_eq_true,
    beq_iff_eq, List.length_eq_zero, List.all_eq_true, jsIncludes, decide_eq_true_eq]
  by_cases hq : q = []
  · subst hq
    rw [if_pos rfl]
    simp
  · rw [if_neg hq]
    simp [jsIncludes, hq]

/-- C2: for every list and 1-based page number `N`, the visible page is the
slice `[(N-1)*12, N*12)` of the list, and `totalPages` is the length divided
by 12 rounded upwards, which is 0 on the empty result set. -/
theorem pagination_slice_and_ceil (l : List IGame) (N : Nat) (hN : 1 ≤ N) :
    currentGames l N = (l.drop ((N - 1) * 12)).take 12 ∧
    totalPages l.length = ⌈(l.length : ℚ) / 12⌉₊ ∧
    totalPages 0 = 0 := by
  refine ⟨?_, ?_, by decide⟩
  · unfold currentGames indexOfFirstGame indexOfLastGame gamesPerPage
    congr 1
    · omega
    · congr 1
      omega
  · rcases Nat.eq_zero_or_pos l.length with h | h
    · rw [h]
      norm_num
      decide
    · have h12 : (0 : ℚ) < 12 := by norm_num
      rw [eq_comm, Nat.ceil_eq_iff (by unfold totalPages gamesPerPage; omega)]
      constructor
      · rw [lt_div_iff₀ h12]
        have hlt : (totalPages l.length - 1) * 12 < l.length := by
          unfold totalPages gamesPerPage
          omega
        exact_mod_cast hlt
      · rw [div_le_iff₀ h12]
        have hle : l.length ≤ totalPages l.length * 12 := by
          unfold totalPages gamesPerPage
          omega
        exact_mod_cast hle

/-- Witness for C2 at the sample data and page 1. -/
theorem pagination_slice_and_ceil_witness :
    currentGames sampleGames 1 = (sampleGames.drop ((1 - 1) * 12)).take 12 ∧
    totalPages sampleGames.length = ⌈(sampleGames.length : ℚ) / 12⌉₊ ∧
    totalPages 0 = 0 :=
  pagination_slice_and_ceil sampleGames 1 (by decide)

/-- C6: the page-number display list for `totalPages = 42`, `currentPage = 7`
is exactly `[1, …, 6, 7, 8, …, 42]`, and for every `totalPages ≤ 5` it is
`[1, ..., totalPages]` with no ellipsis entry. -/
theorem page_display_list_shape :
    getPageNumbers 42 7 =
      [PageEntry.page 1, PageEntry.dots, PageEntry.page 6, PageEntry.page 7, PageEntry.page 8,
        PageEntry.dots, PageEntry.page 42] ∧
    ∀ tp cp : Nat, tp ≤ 5 →
      getPageNumbers tp cp = (List.range tp).map (fun i => PageEntry.page (i + 1)) ∧
      PageEntry.dots ∉ getPageNumbers tp cp := by
  refine ⟨by decide, fun tp cp h => ?_⟩
  have he : getPageNumbers tp cp = (List.range tp).map (fun i => PageEntry.page (i + 1)) := by
    unfold getPageNumbers
    rw [if_pos (show tp ≤ maxPagesToShow from h)]
  refine ⟨he, ?_⟩
  rw [he]
  simp

/-- Witness for C6 at `totalPages = 4`. -/
theorem page_display_list_shape_witness :
    getPageNumbers 4 9 = (List.range 4).map (fun i => PageEntry.page (i + 1)) ∧
    PageEntry.dots ∉ getPageNumbers 4 9 :=
  page_display_list_shape.2 4 9 (by decide)

/-- C9: toggling a tag adds it when absent and removes it when present, and
toggling twice returns `selectedTags` to a set equal to the original. -/
theorem toggle_roundtrip (l : List Str) (tag : Str) :
    (tag ∈ toggleTag tag l ↔ tag ∉ l) ∧
    (∀ x, x ∈ toggleTag tag (toggleTag tag l) ↔ x ∈ l) := by
  constructor
  · by_cases h : tag ∈ l
    · have e1 : toggleTag tag l = l.filter (fun t => decide (t ≠ tag)) := by
        unfold toggleTag
        rw [if_pos h]
      rw [e1]
      simp [List.mem_filter, h]
    · have e1 : toggleTag tag l = l ++ [tag] := by
        unfold toggleTag
        rw [if_neg h]
      rw [e1]
      simp [h]
  · intro x
    by_cases h : tag ∈ l
    · have e1 : toggleTag tag l = l.filter (fun t => decide (t ≠ tag)) := by
        unfold toggleTag
        rw [if_pos h]
      have hmem : tag ∉ l.filter (fun t => decide (t ≠ tag)) := by
        simp [List.mem_filter]
      have e2 : toggleTag tag (toggleTag tag l) =
          l.filter (fun t => decide (t ≠ tag)) ++ [tag] := by
        rw [e1]
        unfold toggleTag
        rw [if_neg hmem]
      rw [e2]
      simp only [List.mem_append, List.mem_filter, decide_eq_true_eq, List.mem_singleton]
      constructor
      · rintro (⟨h1, _⟩ | rfl)
        · exact h1
        · exact h
      · intro hx
        by_cases he : x = tag
        · exact Or.inr he
        · exact Or.inl ⟨hx, he⟩
    · have e1 : toggleTag tag l = l ++ [tag] := by
        unfold toggleTag
        rw [if_neg h]
      have hmem : tag ∈ l ++ [tag] := by simp
      have e2 : toggleTag tag (toggleTag tag l) =
          (l ++ [tag]).filter (fun t => decide (t ≠ tag)) := by
        rw [e1]
        unfold toggleTag
        rw [if_pos hmem]
      rw [e2]
      simp only [List.mem_filter, List.mem_append, decide_eq_true_eq, List.mem_singleton]
      constructor
      · rintro ⟨h1 | rfl, h2⟩
        · exact h1
        · exact absurd rfl h2
      · intro hx
        exact ⟨Or.inl hx, fun he => h (he ▸ hx)⟩

/-- C10: the visible page never holds more than 12 items, and a start index at
or beyond the list length yields the empty page rather than an error. -/
theorem visible_page_slice_total (l : List IGame) (cp : Nat) :
    (currentGames l cp).length ≤ 12 ∧
    (l.length ≤ (cp - 1) * 12 → currentGames l cp = []) := by
  constructor
  · have hlen : (currentGames l cp).length =
        min (indexOfLastGame cp - indexOfFirstGame cp) ((l.drop (indexOfFirstGame cp)).length) := by
      simp [currentGames, List.length_take]
    rw [hlen]
    refine le_trans (min_le_left _ _) ?_
    simp only [indexOfFirstGame, indexOfLastGame, gamesPerPage]
    omega
  · intro h
    have h1 : l.length ≤ indexOfFirstGame cp := by
      simp only [indexOfFirstGame, indexOfLastGame, gamesPerPage]
      omega
    unfold currentGames
    rw [List.drop_eq_nil_of_le h1, List.take_nil]

/-- Witness for C10: on the 3-item sample, page 2 is the empty list. -/
theorem visible_page_slice_total_witness :
    (currentGames sampleGames 2).length ≤ 12 ∧ currentGames sampleGames 2 = [] :=
  ⟨(visible_page_slice_total sampleGames 2).1,
   (visible_page_slice_total sampleGames 2).2 (by decide)⟩

/-- C4: submitting the page-jump form with a non-numeric value, or with a
value parsing outside `[1, totalPages]`, leaves `currentPage` unchanged and
clears the input field; an in-range numeric value becomes the current page. -/
theorem page_input_submit_behaviour (tp cp : Nat) (input : Str) :
    (parseIntJS input = none → handlePageInputSubmit tp cp input = (cp, [])) ∧
    (∀ p : Int, parseIntJS input = some p → (p < 1 ∨ (tp : Int) < p) →
      handlePageInputSubmit tp cp input = (cp, [])) ∧
    (∀ p : Int, parseIntJS input = some p → 1 ≤ p → p ≤ (tp : Int) →
      handlePageInputSubmit tp cp input = (p.toNat, input)) := by
  refine ⟨fun h => ?_, fun p hp hr => ?_, fun p hp h1 h2 => ?_⟩
  · unfold handlePageInputSubmit
    rw [h]
  · unfold handlePageInputSubmit
    rw [hp]
    show (if 1 ≤ p ∧ p ≤ (tp : Int) then (p.toNat, input) else (cp, ([] : Str))) = (cp, [])
    rcases hr with h | h
    · rw [if_neg (by omega)]
    · rw [if_neg (by omega)]
  · unfold handlePageInputSubmit
    rw [hp]
    show (if 1 ≤ p ∧ p ≤ (tp : Int) then (p.toNat, input) else (cp, ([] : Str))) = (p.toNat, input)
    rw [if_pos ⟨h1, h2⟩]

/-- Witness for C4 with `totalPages = 5`: the inputs `"abc"`, `"0"` and `"9"`
are rejected with the field cleared, `"4"` becomes the current page. -/
theorem page_input_submit_behaviour_witness :
    handlePageInputSubmit 5 3 "abc".toList = (3, []) ∧
    handlePageInputSubmit 5 3 "0".toList = (3, []) ∧
    handlePageInputSubmit 5 3 "9".toList = (3, []) ∧
    handlePageInputSubmit 5 3 "4".toList = ((4 : Int).toNat, "4".toList) :=
  ⟨(page_input_submit_behaviour 5 3 "abc".toList).1 (by decide),
   (page_input_submit_behaviour 5 3 "0".toList).2.1 0 (by decide) (by decide),
   (page_input_submit_behaviour 5 3 "9".toList).2.1 9 (by decide) (by decide),
   (page_input_submit_behaviour 5 3 "4".toList).2.2 4 (by decide) (by decide) (by decide)⟩

/-- In a list that is `Pairwise r`, any two distinct members `a`, `b` with
`¬ r b a` occur with `a` strictly before `b`, so `[a, b]` is a sublist. -/
theorem pair_sublist_of_pairwise {α : Type _} {r : α → α → Prop} {a b : α} :
    ∀ {d : List α}, d.Pairwise r → a ∈ d → b ∈ d → a ≠ b → ¬ r b a → [a, b] <+ d
  | [], _, ha, _, _, _ => absurd ha (List.not_mem_nil a)
  | x :: t, hp, ha, hb, hne, hnr => by
    obtain ⟨hx, hpt⟩ := List.pairwise_cons.mp hp
    rcases List.mem_cons.mp ha with rfl | hat
    · rcases List.mem_cons.mp hb with rfl | hbt
      · exact absurd rfl hne
      · exact List.cons_sublist_cons.mpr (List.singleton_sublist.mpr hbt)
    · rcases List.mem_cons.mp hb with rfl | hbt
      · exact absurd (hx a hat) hnr
      · exact List.Sublist.cons x (pair_sublist_of_pairwise hpt hat hbt hne hnr)

/-- Unfolding `sortedGames` at the `"comments-desc"` key. -/
theorem sortedGames_desc (l : List IGame) :
    sortedGames "comments-desc".toList l = l.insertionSort cmpDesc := by
  unfold sortedGames
  rw [if_neg (by decide), if_pos rfl]

/-- Unfolding `sortedGames` at the `"comments-asc"` key. -/
theorem sortedGames_asc (l : List IGame) :
    sortedGames "comments-asc".toList l = l.insertionSort cmpAsc := by
  unfold sortedGames
  rw [if_pos rfl]

/-- C5: on any filtered set, the descending and ascending comment sorts are
exactly reversed on pairs with strictly unequal comment counts, while pairs
with equal comment counts keep their original relative order in both
directions (stable sort, no secondary key). -/
theorem sort_reversal_and_stability (games : List IGame) (sel : List Str) (q : Str) :
    (∀ x y : IGame, x.comments ≠ y.comments →
      ([x, y] <+ sortedGames "comments-desc".toList (filteredGames games sel q) ↔
        [y, x] <+ sortedGames "comments-asc".toList (filteredGames games sel q))) ∧
    (∀ x y : IGame, x.comments = y.comments → [x, y] <+ filteredGames games sel q →
      [x, y] <+ sortedGames "comments-desc".toList (filteredGames games sel q) ∧
      [x, y] <+ sortedGames "comments-asc".toList (filteredGames games sel q)) := by
  constructor
  · intro x y hne
    rw [sortedGames_desc, sortedGames_asc]
    constructor
    · intro h
      have hpd : (List.insertionSort cmpDesc (filteredGames games sel q)).Pairwise cmpDesc :=
        List.sorted_insertionSort cmpDesc (filteredGames games sel q)
      have hxy : cmpDesc x y := List.pairwise_pair.mp (List.Pairwise.sublist h hpd)
      have hlt : y.comments < x.comments := lt_of_le_of_ne hxy (Ne.symm hne)
      have hxl : x ∈ filteredGames games sel q :=
        (List.perm_insertionSort cmpDesc (filteredGames games sel q)).subset (h.subset (by simp))
      have hyl : y ∈ filteredGames games sel q :=
        (List.perm_insertionSort cmpDesc (filteredGames games sel q)).subset (h.subset (by simp))
      have hxa : x ∈ List.insertionSort cmpAsc (filteredGames games sel q) :=
        ((List.perm_insertionSort cmpAsc (filteredGames games sel q)).symm.subset) hxl
      have hya : y ∈ List.insertionSort cmpAsc (filteredGames games sel q) :=
        ((List.perm_insertionSort cmpAsc (filteredGames games sel q)).symm.subset) hyl
      exact pair_sublist_of_pairwise
        (List.sorted_insertionSort cmpAsc (filteredGames games sel q)) hya hxa
        (fun he => hne (by rw [he])) (not_le.mpr hlt)
    · intro h
      have hpa : (List.insertionSort cmpAsc (filteredGames games sel q)).Pairwise cmpAsc :=
        List.sorted_insertionSort cmpAsc (filteredGames games sel q)
      have hxy : cmpAsc y x := List.pairwise_pair.mp (List.Pairwise.sublist h hpa)
      have hlt : y.comments < x.comments := lt_of_le_of_ne hxy hne.symm
      have hyl : y ∈ filteredGames games sel q :=
        (List.perm_insertionSort cmpAsc (filteredGames games sel q)).subset (h.subset (by simp))
      have hxl : x ∈ filteredGames games sel q :=
        (List.perm_insertionSort cmpAsc (filteredGames games sel q)).subset (h.subset (by simp))
      have hxd : x ∈ List.insertionSort cmpDesc (filteredGames games sel q) :=
        ((List.perm_insertionSort cmpDesc (filteredGames games sel q)).symm.subset) hxl
      have hyd : y ∈ List.insertionSort cmpDesc (filteredGames games sel q) :=
        ((List.perm_insertionSort cmpDesc (filteredGames games sel q)).symm.subset) hyl
      exact pair_sublist_of_pairwise
        (List.sorted_insertionSort cmpDesc (filteredGames games sel q)) hxd hyd
        (fun he => hne (by rw [he])) (not_le.mpr hlt)
  · intro x y heq hsub
    rw [sortedGames_desc, sortedGames_asc]
    exact ⟨List.pair_sublist_insertionSort (show cmpDesc x y from heq.ge) hsub,
      List.pair_sublist_insertionSort (show cmpAsc x y from heq.le) hsub⟩

/-- Witness for C5 on the sample data: `g1` (5 comments) and `g2` (3 comments)
reverse between the two sorts; `g2` and `g3` (3 comments each) keep their
original order in both. -/
theorem sort_reversal_and_stability_witness :
    ([g1, g2] <+ sortedGames "comments-desc".toList (filteredGames sampleGames [] []) ↔
      [g2, g1] <+ sortedGames "comments-asc".toList (filteredGames sampleGames [] [])) ∧
    ([g2, g3] <+ sortedGames "comments-desc".toList (filteredGames sampleGames [] []) ∧
      [g2, g3] <+ sortedGames "comments-asc".toList (filteredGames sampleGames [] [])) :=
  ⟨(sort_reversal_and_stability sampleGames [] []).1 g1 g2 (by decide),
   (sort_reversal_and_stability sampleGames [] []).2 g2 g3 (by decide) (by decide)⟩

/-- Counterexample for C7 as stated: at `totalPages = 42`, `currentPage = 42`
the clamp shortens the window (the unclamped end `43` exceeds
`totalPages - 1 = 41`), and the pulled-back window is `40..41` of width `2`,
not the unclamped constant width `3 = maxPagesToShow - 2`. -/
theorem middle_window_width_counterexample :
    42 - 1 < max (42 - 1) 2 + maxPagesToShow - 3 ∧
    middleWindow 42 42 = (40, 41) ∧
    ¬ ((middleWindow 42 42).2 + 1 - (middleWindow 42 42).1 = maxPagesToShow - 2) := by
  decide

/-- C7 amended: for `totalPages > 5` and valid `currentPage`, the window start
is `max(currentPage - 1, 2)`, the end is clamped to
`min(start + 2, totalPages - 1)` and never runs past `totalPages - 1`; when no
clamping shortfall occurs the window has the constant width 3, and when the
clamp shortens it the start is pulled back to `max(end - 1, 2)`, giving a
window of width 2 (one less than the unclamped width). -/
theorem middle_window_clamped (tp cp : Nat) (h5 : 5 < tp) (h1 : 1 ≤ cp) (h2 : cp ≤ tp) :
    (middleWindow tp cp).2 = min (max (cp - 1) 2 + 2) (tp - 1) ∧
    (middleWindow tp cp).2 ≤ tp - 1 ∧
    (2 ≤ min (max (cp - 1) 2 + 2) (tp - 1) - max (cp - 1) 2 →
      (middleWindow tp cp).1 = max (cp - 1) 2 ∧
      (middleWindow tp cp).2 + 1 - (middleWindow tp cp).1 = 3) ∧
    (min (max (cp - 1) 2 + 2) (tp - 1) - max (cp - 1) 2 < 2 →
      (middleWindow tp cp).1 = max (min (max (cp - 1) 2 + 2) (tp - 1) - 1) 2 ∧
      (middleWindow tp cp).2 + 1 - (middleWindow tp cp).1 = 2) := by
  have hmw : middleWindow tp cp =
      (if min (max (cp - 1) 2 + 2) (tp - 1) - max (cp - 1) 2 < 2 then
        (max (min (max (cp - 1) 2 + 2) (tp - 1) - 1) 2, min (max (cp - 1) 2 + 2) (tp - 1))
      else (max (cp - 1) 2, min (max (cp - 1) 2 + 2) (tp - 1))) := by
    unfold middleWindow maxPagesToShow
    dsimp only
    split_ifs
    all_goals rw [Prod.mk.injEq]
    all_goals constructor
    all_goals omega
  rw [hmw]
  split_ifs with h
  · dsimp only
    exact ⟨rfl, by omega, fun hc => absurd hc (by omega), fun hc => ⟨rfl, by omega⟩⟩
  · dsimp only
    exact ⟨rfl, by omega, fun hc => ⟨rfl, by omega⟩, fun hc => absurd hc (by omega)⟩

/-- Witness for C7 (amended) at `totalPages = 42`, `currentPage = 7`. -/
theorem middle_window_clamped_witness :
    (middleWindow 42 7).2 = min (max (7 - 1) 2 + 2) (42 - 1) ∧
    (middleWindow 42 7).2 ≤ 42 - 1 ∧
    (2 ≤ min (max (7 - 1) 2 + 2) (42 - 1) - max (7 - 1) 2 →
      (middleWindow 42 7).1 = max (7 - 1) 2 ∧
      (middleWindow 42 7).2 + 1 - (middleWindow 42 7).1 = 3) ∧
    (min (max (7 - 1) 2 + 2) (42 - 1) - max (7 - 1) 2 < 2 →
      (middleWindow 42 7).1 = max (min (max (7 - 1) 2 + 2) (42 - 1) - 1) 2 ∧
      (middleWindow 42 7).2 + 1 - (middleWindow 42 7).1 = 2) :=
  middle_window_clamped 42 7 (by decide) (by decide) (by decide)

/-- C8 evidence: the code deduplicates the genre tokens (`new Set`) before
counting, so every recorded frequency is 1 and the startup tag list keeps
first-occurrence order.  On the sample data set, `"action"` occurs in 3 items
and `"rpg"` in 1, yet the computed list is `["rpg", "action"]`, violating the
claimed descending-by-item-frequency ranking. -/
theorem tag_ranking_code_evidence :
    tagsOf sampleGames = ["rpg".toList, "action".toList] ∧
    itemFrequency sampleGames ("action".toList) = 3 ∧
    itemFrequency sampleGames ("rpg".toList) = 1 ∧
    ¬ rankedByItemFrequency sampleGames := by
  constructor
  · decide
  · refine ⟨by decide, by decide, ?_⟩
    unfold rankedByItemFrequency
    decide

/-- Sorting never changes the length of the list. -/
theorem sortedGames_length (v : Str) (l : List IGame) : (sortedGames v l).length = l.length := by
  unfold sortedGames
  split_ifs
  · exact (List.perm_insertionSort cmpAsc l).length_eq
  · exact (List.perm_insertionSort cmpDesc l).length_eq
  · rfl

/-- A non-empty filtered set yields at least one page. -/
theorem one_le_stateTotalPages {games : List IGame} {s : AppState}
    (h : filteredGames games s.selectedTags s.searchQuery ≠ []) :
    1 ≤ stateTotalPages games s := by
  have hl : 0 < (filteredGames games s.selectedTags s.searchQuery).length :=
    List.length_pos.mpr h
  simp only [stateTotalPages, stateSorted, totalPages, gamesPerPage, sortedGames_length]
  omega

/-- A non-empty visible page forces a non-empty filtered set. -/
theorem filtered_ne_of_currentGames {games : List IGame} {s : AppState}
    (h : stateCurrentGames games s ≠ []) :
    filteredGames games s.selectedTags s.searchQuery ≠ [] := by
  intro hf
  apply h
  have hs : stateSorted games s = [] := by
    have hlen : (stateSorted games s).length = 0 := by
      unfold stateSorted
      rw [sortedGames_length, hf]
      rfl
    exact List.length_eq_zero.mp hlen
  unfold stateCurrentGames currentGames
  rw [hs]
  simp

/-- The middle window always starts at 2 or later and ends at
`totalPages - 1` or earlier. -/
theorem middleWindow_bounds (tp cp : Nat) :
    2 ≤ (middleWindow tp cp).1 ∧ (middleWindow tp cp).2 ≤ tp - 1 := by
  unfold middleWindow maxPagesToShow
  dsimp only
  split_ifs
  all_goals constructor
  all_goals dsimp only
  all_goals omega

/-- Every numeric entry of the page-number display list lies in
`[1, totalPages]`. -/
theorem mem_getPageNumbers_bounds {tp cp n : Nat}
    (h : PageEntry.page n ∈ getPageNumbers tp cp) (htp : 1 ≤ tp) : 1 ≤ n ∧ n ≤ tp := by
  unfold getPageNumbers at h
  by_cases h5 : tp ≤ maxPagesToShow
  · rw [if_pos h5] at h
    simp only [List.mem_map, List.mem_range, PageEntry.page.injEq] at h
    obtain ⟨i, hi, he⟩ := h
    omega
  · rw [if_neg h5] at h
    have hb := middleWindow_bounds tp cp
    have hd1 : PageEntry.page n ∉
        (if 2 < (middleWindow tp cp).1 then [PageEntry.dots] else []) := by
      split_ifs <;> simp
    have hd2 : PageEntry.page n ∉
        (if (middleWindow tp cp).2 < tp - 1 then [PageEntry.dots] else []) := by
      split_ifs <;> simp
    simp only [maxPagesToShow] at h5
    simp only [List.mem_append, List.mem_singleton, PageEntry.page.injEq] at h
    rcases h with (((h | h) | h) | h) | h
    · exact ⟨by omega, by omega⟩
    · exact absurd h hd1
    · simp only [List.mem_map, List.mem_range, PageEntry.page.injEq] at h
      obtain ⟨i, hi, he⟩ := h
      obtain ⟨hb1, hb2⟩ := hb
      exact ⟨by omega, by omega⟩
    · exact absurd h hd2
    · exact ⟨by omega, by omega⟩

/-- The page-jump handler either leaves the current page unchanged or moves it
into `[1, totalPages]`. -/
theorem handle_bounds (tp cp : Nat) (input : Str) :
    (handlePageInputSubmit tp cp input).1 = cp ∨
      (1 ≤ (handlePageInputSubmit tp cp input).1 ∧
        (handlePageInputSubmit tp cp input).1 ≤ tp) := by
  unfold handlePageInputSubmit
  cases hp : parseIntJS input with
  | none => exact Or.inl rfl
  | some p =>
    by_cases hc : 1 ≤ p ∧ p ≤ (tp : Int)
    · right
      show 1 ≤ (if 1 ≤ p ∧ p ≤ (tp : Int) then (p.toNat, input) else (cp, ([] : Str))).1 ∧
        (if 1 ≤ p ∧ p ≤ (tp : Int) then (p.toNat, input) else (cp, ([] : Str))).1 ≤ tp
      rw [if_pos hc]
      obtain ⟨hc1, hc2⟩ := hc
      exact ⟨by omega, by omega⟩
    · left
      show (if 1 ≤ p ∧ p ≤ (tp : Int) then (p.toNat, input) else (cp, ([] : Str))).1 = cp
      rw [if_neg hc]

/-- The interaction invariant: the current page is positive and, whenever the
filtered result set is non-empty, at most `totalPages`. -/
def StateInv (games : List IGame) (s : AppState) : Prop :=
  1 ≤ s.currentPage ∧
    (filteredGames games s.selectedTags s.searchQuery ≠ [] →
      s.currentPage ≤ stateTotalPages games s)

/-- The initial state satisfies the invariant. -/
theorem inv_init (games : List IGame) : StateInv games initState :=
  ⟨le_refl 1, fun h => one_le_stateTotalPages h⟩

/-- Every interaction step preserves the invariant. -/
theorem inv_step (games : List IGame) (s : AppState) (e : Event) (ih : StateInv games s) :
    StateInv games (step games s e) := by
  obtain ⟨ih1, ih2⟩ := ih
  cases e with
  | setSearch q =>
    simp only [step]
    split_ifs with hq
    · exact ⟨ih1, ih2⟩
    · exact ⟨le_refl 1, fun h => one_le_stateTotalPages h⟩
  | setSort v =>
    simp only [step]
    split_ifs with hq
    · exact ⟨ih1, ih2⟩
    · exact ⟨le_refl 1, fun h => one_le_stateTotalPages h⟩
  | toggleTag t =>
    exact ⟨le_refl 1, fun h => one_le_stateTotalPages h⟩
  | clearFilters =>
    exact ⟨le_refl 1, fun h => one_le_stateTotalPages h⟩
  | setTagSearch q =>
    exact ⟨ih1, fun h => ih2 h⟩
  | setPageInput v =>
    exact ⟨ih1, fun h => ih2 h⟩
  | prevPage =>
    simp only [step]
    split_ifs with hg
    · obtain ⟨hg1, hg2⟩ := hg
      show 1 ≤ s.currentPage - 1 ∧
        (filteredGames games s.selectedTags s.searchQuery ≠ [] →
          s.currentPage - 1 ≤ stateTotalPages games s)
      refine ⟨by omega, fun h => ?_⟩
      have h2 := ih2 h
      omega
    · exact ⟨ih1, ih2⟩
  | nextPage =>
    simp only [step]
    split_ifs with hg
    · obtain ⟨hg1, hg2⟩ := hg
      show 1 ≤ s.currentPage + 1 ∧
        (filteredGames games s.selectedTags s.searchQuery ≠ [] →
          s.currentPage + 1 ≤ stateTotalPages games s)
      refine ⟨by omega, fun h => ?_⟩
      have h2 := ih2 (filtered_ne_of_currentGames hg1)
      omega
    · exact ⟨ih1, ih2⟩
  | clickPage n =>
    simp only [step]
    split_ifs with hg
    · obtain ⟨hg1, hg2⟩ := hg
      have hf := filtered_ne_of_currentGames hg1
      have htp := one_le_stateTotalPages hf
      have hb := mem_getPageNumbers_bounds hg2 htp
      show 1 ≤ n ∧
        (filteredGames games s.selectedTags s.searchQuery ≠ [] →
          n ≤ stateTotalPages games s)
      exact ⟨hb.1, fun _ => hb.2⟩
    · exact ⟨ih1, ih2⟩
  | submitPageInput =>
    simp only [step]
    split_ifs with hg
    · show 1 ≤ (handlePageInputSubmit (stateTotalPages games s) s.currentPage
          s.pageInputValue).1 ∧
        (filteredGames games s.selectedTags s.searchQuery ≠ [] →
          (handlePageInputSubmit (stateTotalPages games s) s.currentPage
            s.pageInputValue).1 ≤ stateTotalPages games s)
      rcases handle_bounds (stateTotalPages games s) s.currentPage s.pageInputValue with hb | hb
      · rw [hb]
        exact ⟨ih1, fun h => ih2 h⟩
      · exact ⟨hb.1, fun _ => hb.2⟩
    · exact ⟨ih1, ih2⟩

/-- Every reachable state satisfies the invariant. -/
theorem inv_reachable (games : List IGame) (s : AppState) (h : Reachable games s) :
    StateInv games s := by
  induction h with
  | init => exact inv_init games
  | next e hr ih => exact inv_step games _ e ih

/-- Every step leaves the three filter-context fields unchanged unless it also
resets the page to 1. -/
theorem step_reset (games : List IGame) (s : AppState) (e : Event)
    (h : (step games s e).selectedTags ≠ s.selectedTags ∨
      (step games s e).searchQuery ≠ s.searchQuery ∨
      (step games s e).sortBy ≠ s.sortBy) :
    (step games s e).currentPage = 1 := by
  cases e with
  | setSearch q =>
    simp only [step] at h ⊢
    split_ifs at h ⊢ with hq
    · simp at h
    · rfl
  | setSort v =>
    simp only [step] at h ⊢
    split_ifs at h ⊢ with hq
    · simp at h
    · rfl
  | toggleTag t => rfl
  | clearFilters => rfl
  | setTagSearch q =>
    exfalso
    simp [step] at h
  | setPageInput v =>
    exfalso
    simp [step] at h
  | prevPage =>
    exfalso
    simp only [step] at h
    split_ifs at h <;> simp at h
  | nextPage =>
    exfalso
    simp only [step] at h
    split_ifs at h <;> simp at h
  | clickPage n =>
    exfalso
    simp only [step] at h
    split_ifs at h <;> simp at h
  | submitPageInput =>
    exfalso
    simp only [step] at h
    split_ifs at h <;> simp at h

/-- C3: after every transition that changes `selectedTags`, `searchQuery` or
the sort order, `currentPage` is 1; and in every reachable state whose
filtered result set is non-empty, `currentPage` lies in `[1, totalPages]`. -/
theorem page_reset_and_range_invariant (games : List IGame) :
    (∀ (s : AppState) (e : Event),
      (step games s e).selectedTags ≠ s.selectedTags ∨
        (step games s e).searchQuery ≠ s.searchQuery ∨
        (step games s e).sortBy ≠ s.sortBy →
      (step games s e).currentPage = 1) ∧
    (∀ s : AppState, Reachable games s →
      filteredGames games s.selectedTags s.searchQuery ≠ [] →
      1 ≤ s.currentPage ∧ s.currentPage ≤ stateTotalPages games s) :=
  ⟨fun s e h => step_reset games s e h,
   fun s hr hf => ⟨(inv_reachable games s hr).1, (inv_reachable games s hr).2 hf⟩⟩

/-- Witness for C3: a concrete search change resets the page, and the initial
state of the sample data satisfies the range invariant. -/
theorem page_reset_and_range_invariant_witness :
    (step sampleGames initState (Event.setSearch "a".toList)).currentPage = 1 ∧
    (1 ≤ initState.currentPage ∧
      initState.currentPage ≤ stateTotalPages sampleGames initState) :=
  ⟨(page_reset_and_range_invariant sampleGames).1 initState (Event.setSearch "a".toList)
      (by decide),
   (page_reset_and_range_invariant sampleGames).2 initState Reachable.init (by decide)⟩
